import Mathlib

/-!
# Verification of the UKV regrid/extract pipeline

The repository is a notebook (`urban-exploration-climate_ukv.ipynb`) that
loads a gridded NetCDF field, builds a geographic target grid
(`np.linspace` + `DimCoord` + `guess_bounds`), regrids the source onto it
(`Cube.regrid` with `iris.analysis.Linear(extrapolation_mode="mask")`),
extracts a London bounding box (`Cube.intersection`) and saves the result
(`iris.save`).  The notebook itself only sequences these library calls; the
operations' semantics live in the Iris/numpy libraries, which are not part
of the repository's sources.  Each such operation is therefore modelled
from the specification's description of it (doc comments below say
`Modelled from the spec:` and name the missing library symbol), and the
claims are settled against these models.

Coordinates and data values are modelled as rationals, a masked/invalid
cell as `none`.
-/

namespace UkvPipeline

/-- A coordinate axis of a gridded field: an ordered sequence of
cell-center positions together with optional cell-bounds pairs.
(Units and the coordinate-reference-system tag carry no computational
content for the claims and are omitted.) -/
structure Axis where
  points : List ℚ
  bounds : Option (List (ℚ × ℚ))
deriving DecidableEq

/-- The sole entity of the data model: a 2D array of values (row-major:
outer index along `axis0` = latitude, inner along `axis1` = longitude)
with two coordinate axes.  A cell holding `none` is masked invalid. -/
structure GriddedField where
  axis0 : Axis
  axis1 : Axis
  values : List (List (Option ℚ))
deriving DecidableEq

/-- An inclusive lat/lon bounding box as passed to `Cube.intersection`
(notebook cell 19: `min_lon, min_lat, max_lon, max_lat`). -/
structure Box where
  lat0 : ℚ
  lat1 : ℚ
  lon0 : ℚ
  lon1 : ℚ
deriving DecidableEq

/-- Modelled from the spec: `np.linspace a b n` (notebook cell 12) —
`n` evenly spaced samples from `a` to `b`, endpoints included.
For `n = 1` the step divides by zero; in ℚ that division is `0`, giving
`[a]`, which is numpy's behaviour for a single sample. -/
def linspace (a b : ℚ) (n : ℕ) : List ℚ :=
  (List.range n).map (fun (i : ℕ) => a + (i : ℚ) * ((b - a) / ((n : ℚ) - 1)))

/-- Modelled from the spec: `DimCoord.guess_bounds` (notebook cells 7, 12) —
the bound between two adjacent axis values is their midpoint, and the
outer bound of the first and last cell is extrapolated symmetrically
about that cell's center. -/
def guessBounds (xs : List ℚ) : List (ℚ × ℚ) :=
  (List.range xs.length).map (fun i =>
    (if i = 0 then xs.getD 0 0 - (xs.getD 1 0 - xs.getD 0 0) / 2
     else (xs.getD (i - 1) 0 + xs.getD i 0) / 2,
     if i = xs.length - 1 then xs.getD i 0 + (xs.getD i 0 - xs.getD (i - 1) 0) / 2
     else (xs.getD i 0 + xs.getD (i + 1) 0) / 2))

/-- Attach bounds to an axis when it lacks them, as the Loader does after
parsing (`guess_bounds` is only called because the file carries none);
an axis that already has bounds is left unchanged. -/
def ensureBounds (a : Axis) : Axis :=
  match a.bounds with
  | some _ => a
  | none => { a with bounds := some (guessBounds a.points) }

/-- Modelled from the spec: the Loader's post-parse guarantee (§4.1) —
after parsing, both spatial axes carry explicit bounds, derived by
`guessBounds` when the source file lacks them. -/
def loaderPost (f : GriddedField) : GriddedField :=
  { f with axis0 := ensureBounds f.axis0, axis1 := ensureBounds f.axis1 }

/-- Modelled from the spec: the target-grid constructor (§4.3a, notebook
cell 12) — evenly spaced geographic axes spanning the extents inclusive,
bounds derived as in 4.1, values initialized to arbitrary filler. -/
def makeTargetGrid (lat0 lat1 lon0 lon1 : ℚ) (n m : ℕ) (fill : ℚ) : GriddedField :=
  let lats := linspace lat0 lat1 n
  let lons := linspace lon0 lon1 m
  { axis0 := { points := lats, bounds := some (guessBounds lats) }
    axis1 := { points := lons, bounds := some (guessBounds lons) }
    values := List.replicate n (List.replicate m (some fill)) }

/-- The bounds intervals an axis is treated as having during extraction:
its explicit bounds when present, degenerate point-intervals otherwise. -/
def cellBounds (a : Axis) : List (ℚ × ℚ) :=
  match a.bounds with
  | some bs => bs
  | none => a.points.map (fun p => (p, p))

/-- A cell-bounds interval `b` overlaps the requested interval `[lo, hi]`:
the two intervals share a sub-interval of positive length.  Partial
overlap counts; containment of the cell in the box is not required; a
zero-width request overlaps nothing. -/
def overlapB (b : ℚ × ℚ) (lo hi : ℚ) : Bool :=
  decide (max lo b.1 < min hi b.2)

/-- Indices of the axis cells whose bounds interval overlaps `[lo, hi]`. -/
def keptIndices (a : Axis) (lo hi : ℚ) : List ℕ :=
  (List.range a.points.length).filter
    (fun i => overlapB ((cellBounds a).getD i (0, 0)) lo hi)

/-- Restrict an axis to the cells whose bounds overlap `[lo, hi]`. -/
def restrictAxis (a : Axis) (lo hi : ℚ) : Axis :=
  { points := (keptIndices a lo hi).map (fun i => a.points.getD i 0)
    bounds :=
      match a.bounds with
      | some bs => some ((keptIndices a lo hi).map (fun i => bs.getD i (0, 0)))
      | none => none }

/-- Modelled from the spec: `Cube.intersection` (§4.4, notebook cell 19) —
restrict the field to the axis index ranges whose bounds intersect the
inclusive bounding box; a cell is included iff its bounds interval
overlaps the requested interval. -/
def intersection (f : GriddedField) (box : Box) : GriddedField :=
  let k0 := keptIndices f.axis0 box.lat0 box.lat1
  let k1 := keptIndices f.axis1 box.lon0 box.lon1
  { axis0 := restrictAxis f.axis0 box.lat0 box.lat1
    axis1 := restrictAxis f.axis1 box.lon0 box.lon1
    values := k0.map (fun i => k1.map (fun j => (f.values.getD i []).getD j none)) }

/-- Modelled from the spec: `iris.save` (notebook cell 23) serializes a
field to NetCDF; the NetCDF codec is an opaque library service (§1), so
saving is modelled as preserving the field's content exactly. -/
def save (f : GriddedField) : GriddedField := f

/-- The index `i` of the source-axis cell `[xs i, xs (i+1)]` that brackets
the coordinate `x`, when one exists (the first such interval). -/
def findCell (xs : List ℚ) (x : ℚ) : Option ℕ :=
  (List.range (xs.length - 1)).find?
    (fun i => decide (xs.getD i 0 ≤ x ∧ x ≤ xs.getD (i + 1) 0))

/-- The value of the 2D array `v` at row `i`, column `j` (`none` when the
cell is masked or out of range). -/
def getV (v : List (List (Option ℚ))) (i j : ℕ) : Option ℚ :=
  (v.getD i []).getD j none

/-- Modelled from the spec: bilinear interpolation over the source's
native grid (§4.3b).  A sample position outside the source's covered
extent has no bracketing cell and yields `none` (masked, never
extrapolated); inside, the value is the bilinear combination of the four
surrounding source values, masked if any of them is masked. -/
def bilinear (xs ys : List ℚ) (v : List (List (Option ℚ))) (x y : ℚ) : Option ℚ :=
  match findCell xs x, findCell ys y with
  | some i, some j =>
    match getV v i j, getV v i (j + 1), getV v (i + 1) j, getV v (i + 1) (j + 1) with
    | some v00, some v01, some v10, some v11 =>
      let x0 := xs.getD i 0
      let x1 := xs.getD (i + 1) 0
      let y0 := ys.getD j 0
      let y1 := ys.getD (j + 1) 0
      let tx := (x - x0) / (x1 - x0)
      let ty := (y - y0) / (y1 - y0)
      some ((1 - tx) * (1 - ty) * v00 + (1 - tx) * ty * v01 +
            tx * (1 - ty) * v10 + tx * ty * v11)
    | _, _, _, _ => none
  | _, _ => none

/-- Modelled from the spec: `Cube.regrid` with
`iris.analysis.Linear(extrapolation_mode="mask")` (§4.3b, notebook cell
15) — produce a field with the target's geometry, each value interpolated
bilinearly from the source at the target sample position, which `proj`
first projects from the target's reference frame into source-grid
coordinates; positions outside the source's coverage are masked. -/
def regrid (src tgt : GriddedField) (proj : ℚ → ℚ → ℚ × ℚ) : GriddedField :=
  { axis0 := tgt.axis0
    axis1 := tgt.axis1
    values := tgt.axis0.points.map (fun ta =>
      tgt.axis1.points.map (fun tb =>
        let p := proj ta tb
        bilinear src.axis0.points src.axis1.points src.values p.1 p.2)) }

/-- The identity projection, for source and target on the same plain
reference frame. -/
def projId : ℚ → ℚ → ℚ × ℚ := fun a b => (a, b)

/-- Bounds brackets are contiguous: each cell's upper bound is the next
cell's lower bound. -/
def Contiguous (bs : List (ℚ × ℚ)) : Prop :=
  List.Chain' (fun p q => p.2 = q.1) bs

/-- Structural invariant of an axis (§3): strictly monotonic (increasing)
cell centers; when bounds are present, one bounds pair per point,
contiguous brackets, each increasing in the same ordering as the axis. -/
def AxisInv (a : Axis) : Prop :=
  a.points.Pairwise (· < ·) ∧
  ∀ bs, a.bounds = some bs →
    bs.length = a.points.length ∧ Contiguous bs ∧ ∀ b ∈ bs, b.1 < b.2

/-- Structural invariant of a gridded field (§3): array shape equals
`(len axis0, len axis1)` and both axes satisfy `AxisInv`. -/
def FieldInv (f : GriddedField) : Prop :=
  f.values.length = f.axis0.points.length ∧
  (∀ row ∈ f.values, row.length = f.axis1.points.length) ∧
  AxisInv f.axis0 ∧ AxisInv f.axis1

/-- The synthetic 4×4 source field of the spec's concrete resampling
scenario: values `[[0,1,2,3],[4,5,6,7],[8,9,10,11],[12,13,14,15]]` on a
grid whose cell centers sit at coordinates `0, 1, 2, 3`. -/
def src4 : GriddedField :=
  { axis0 := { points := [0, 1, 2, 3], bounds := none }
    axis1 := { points := [0, 1, 2, 3], bounds := none }
    values := [[some 0, some 1, some 2, some 3],
               [some 4, some 5, some 6, some 7],
               [some 8, some 9, some 10, some 11],
               [some 12, some 13, some 14, some 15]] }

/-- The 2×2 target of the spec's concrete resampling scenario: cell
centers at `(0.5, 0.5), (0.5, 2.5), (2.5, 0.5), (2.5, 2.5)`. -/
def tgt2 : GriddedField :=
  { axis0 := { points := [1/2, 5/2], bounds := none }
    axis1 := { points := [1/2, 5/2], bounds := none }
    values := [[some 0, some 0], [some 0, some 0]] }

/-- Lower end of the extent covered by an axis's cells: the lower bound of
its first cell (bounds are contiguous and increasing on invariant-satisfying
axes, so this is the least covered coordinate). -/
def coverageLo (a : Axis) : ℚ := ((cellBounds a).getD 0 (0, 0)).1

/-- Upper end of the extent covered by an axis's cells: the upper bound of
its last cell. -/
def coverageHi (a : Axis) : ℚ :=
  ((cellBounds a).getD ((cellBounds a).length - 1) (0, 0)).2

/-! ## Basic lemmas about the embedded operations -/

theorem length_linspace (a b : ℚ) (n : ℕ) : (linspace a b n).length = n := by
  rw [linspace, List.length_map, List.length_range]

theorem getD_linspace (a b : ℚ) (n i : ℕ) (hi : i < n) :
    (linspace a b n).getD i 0 = a + (i : ℚ) * ((b - a) / ((n : ℚ) - 1)) := by
  rw [List.getD_eq_getElem _ _ (by rw [length_linspace]; exact hi)]
  simp only [linspace, List.getElem_map, List.getElem_range]

theorem length_guessBounds (xs : List ℚ) : (guessBounds xs).length = xs.length := by
  simp [guessBounds]

theorem getD_guessBounds (xs : List ℚ) (i : ℕ) (hi : i < xs.length) :
    (guessBounds xs).getD i (0, 0) =
      (if i = 0 then xs.getD 0 0 - (xs.getD 1 0 - xs.getD 0 0) / 2
       else (xs.getD (i - 1) 0 + xs.getD i 0) / 2,
       if i = xs.length - 1 then xs.getD i 0 + (xs.getD i 0 - xs.getD (i - 1) 0) / 2
       else (xs.getD i 0 + xs.getD (i + 1) 0) / 2) := by
  rw [List.getD_eq_getElem _ _ (by simp [length_guessBounds, hi])]
  simp [guessBounds]

theorem map_getD_range {α : Type} (l : List α) (d : α) :
    (List.range l.length).map (fun i => l.getD i d) = l := by
  apply List.ext_getElem
  · simp
  · intro i h1 h2
    simp only [List.getElem_map, List.getElem_range]
    exact List.getD_eq_getElem l d h2

theorem pairwise_getD_lt (xs : List ℚ) (h : xs.Pairwise (· < ·)) {i j : ℕ}
    (hij : i < j) (hj : j < xs.length) : xs.getD i 0 < xs.getD j 0 := by
  have hi : i < xs.length := lt_trans hij hj
  rw [List.getD_eq_getElem _ _ hi, List.getD_eq_getElem _ _ hj]
  exact List.pairwise_iff_getElem.mp h i j hi hj hij

theorem pairwise_getD_le (xs : List ℚ) (h : xs.Pairwise (· < ·)) {i j : ℕ}
    (hij : i ≤ j) (hj : j < xs.length) : xs.getD i 0 ≤ xs.getD j 0 := by
  rcases lt_or_eq_of_le hij with hlt | hEq
  · exact le_of_lt (pairwise_getD_lt xs h hlt hj)
  · rw [hEq]

theorem findCell_spec (xs : List ℚ) (x : ℚ) (i : ℕ) (h : findCell xs x = some i) :
    i + 1 < xs.length ∧ xs.getD i 0 ≤ x ∧ x ≤ xs.getD (i + 1) 0 := by
  have hmem := List.mem_of_find?_eq_some h
  have hp := List.find?_some h
  rw [List.mem_range] at hmem
  refine ⟨?_, of_decide_eq_true hp |>.1, of_decide_eq_true hp |>.2⟩
  omega

theorem findCell_eq_none_of_lt (xs : List ℚ) (x : ℚ) (hm : xs.Pairwise (· < ·))
    (hx : x < xs.getD 0 0) : findCell xs x = none := by
  rw [findCell, List.find?_eq_none]
  intro i hi
  rw [List.mem_range] at hi
  simp only [decide_eq_true_eq, not_and]
  intro hle
  exact absurd (le_trans (pairwise_getD_le xs hm (Nat.zero_le i) (by omega)) hle)
    (not_le.mpr hx)

theorem findCell_eq_none_of_gt (xs : List ℚ) (x : ℚ) (hm : xs.Pairwise (· < ·))
    (hx : xs.getD (xs.length - 1) 0 < x) : findCell xs x = none := by
  rw [findCell, List.find?_eq_none]
  intro i hi
  rw [List.mem_range] at hi
  simp only [decide_eq_true_eq, not_and]
  intro _
  have hle : xs.getD (i + 1) 0 ≤ xs.getD (xs.length - 1) 0 :=
    pairwise_getD_le xs hm (by omega) (by omega)
  exact not_le.mpr (lt_of_le_of_lt hle hx)

theorem exists_bracket (x : ℚ) : ∀ (xs : List ℚ), 2 ≤ xs.length →
    xs.getD 0 0 ≤ x → x ≤ xs.getD (xs.length - 1) 0 →
    ∃ i, i + 1 < xs.length ∧ xs.getD i 0 ≤ x ∧ x ≤ xs.getD (i + 1) 0
  | [], h2, _, _ => by simp at h2
  | [a], h2, _, _ => by simp at h2
  | a :: b :: t, _, hlo, hhi => by
    by_cases hxb : x ≤ b
    · exact ⟨0, by simp, by simpa using hlo, by simpa using hxb⟩
    · match t, hhi with
      | [], hhi => exact absurd (by simpa using hhi) hxb
      | c :: t', hhi =>
        obtain ⟨i, hi, h1, h2⟩ :=
          exists_bracket x (b :: c :: t') (by simp)
            (le_of_lt (not_le.mp hxb)) (by simpa using hhi)
        exact ⟨i + 1, by simpa using hi, by simpa using h1, by simpa using h2⟩

theorem findCell_isSome (xs : List ℚ) (x : ℚ) (h2 : 2 ≤ xs.length)
    (hlo : xs.getD 0 0 ≤ x) (hhi : x ≤ xs.getD (xs.length - 1) 0) :
    ∃ i, findCell xs x = some i := by
  obtain ⟨i, hi, hl, hr⟩ := exists_bracket x xs h2 hlo hhi
  rcases hopt : findCell xs x with _ | j
  · rw [findCell, List.find?_eq_none] at hopt
    exact absurd (decide_eq_true ⟨hl, hr⟩)
      (hopt i (List.mem_range.mpr (by omega)))
  · exact ⟨j, rfl⟩

theorem mem_keptIndices (a : Axis) (lo hi : ℚ) (i : ℕ) :
    i ∈ keptIndices a lo hi ↔
      i < a.points.length ∧ overlapB ((cellBounds a).getD i (0, 0)) lo hi = true := by
  rw [keptIndices, List.mem_filter, List.mem_range]

theorem keptIndices_pairwise (a : Axis) (lo hi : ℚ) :
    (keptIndices a lo hi).Pairwise (· < ·) :=
  (List.pairwise_lt_range _).filter _

theorem length_restrictAxis (a : Axis) (lo hi : ℚ) :
    (restrictAxis a lo hi).points.length = (keptIndices a lo hi).length := by
  rw [restrictAxis, List.length_map]

theorem overlapB_mono {b : ℚ × ℚ} {lo1 hi1 lo2 hi2 : ℚ} (hlo : lo2 ≤ lo1)
    (hhi : hi1 ≤ hi2) (h : overlapB b lo1 hi1 = true) : overlapB b lo2 hi2 = true := by
  simp only [overlapB, decide_eq_true_eq] at *
  calc max lo2 b.1 ≤ max lo1 b.1 := max_le_max hlo le_rfl
  _ < min hi1 b.2 := h
  _ ≤ min hi2 b.2 := min_le_min hhi le_rfl

theorem keptIndices_length_mono (a : Axis) {lo1 hi1 lo2 hi2 : ℚ} (hlo : lo2 ≤ lo1)
    (hhi : hi1 ≤ hi2) :
    (keptIndices a lo1 hi1).length ≤ (keptIndices a lo2 hi2).length :=
  (List.monotone_filter_right _ (fun _ h => overlapB_mono hlo hhi h)).length_le

theorem pairwise_getD {α : Type} (l : List α) (d : α) {R : α → α → Prop}
    (h : l.Pairwise R) {i j : ℕ} (hij : i < j) (hj : j < l.length) :
    R (l.getD i d) (l.getD j d) := by
  rw [List.getD_eq_getElem _ _ (lt_trans hij hj), List.getD_eq_getElem _ _ hj]
  exact List.pairwise_iff_getElem.mp h i j (lt_trans hij hj) hj hij

theorem overlapB_width (b : ℚ × ℚ) (lo hi : ℚ) (h : overlapB b lo hi = true) :
    b.1 < b.2 :=
  lt_of_le_of_lt (le_max_right lo b.1)
    (lt_of_lt_of_le (of_decide_eq_true h) (min_le_right hi b.2))

theorem chain_fst_of_contiguous : ∀ bs : List (ℚ × ℚ), Contiguous bs →
    (∀ b ∈ bs, b.1 < b.2) → List.Chain' (fun p q : ℚ × ℚ => p.1 < q.1) bs
  | [], _, _ => List.chain'_nil
  | [_], _, _ => List.chain'_singleton _
  | p :: q :: t, hc, hw => by
    rw [Contiguous, List.chain'_cons] at hc
    rw [List.chain'_cons]
    refine ⟨hc.1 ▸ hw p (by simp), ?_⟩
    exact chain_fst_of_contiguous (q :: t) hc.2 (fun b hb => hw b (by simp [hb]))

theorem chain_snd_of_contiguous : ∀ bs : List (ℚ × ℚ), Contiguous bs →
    (∀ b ∈ bs, b.1 < b.2) → List.Chain' (fun p q : ℚ × ℚ => p.2 < q.2) bs
  | [], _, _ => List.chain'_nil
  | [_], _, _ => List.chain'_singleton _
  | p :: q :: t, hc, hw => by
    rw [Contiguous, List.chain'_cons] at hc
    rw [List.chain'_cons]
    refine ⟨hc.1 ▸ hw q (by simp), ?_⟩
    exact chain_snd_of_contiguous (q :: t) hc.2 (fun b hb => hw b (by simp [hb]))

theorem pairwise_fst_of_contiguous (bs : List (ℚ × ℚ)) (hc : Contiguous bs)
    (hw : ∀ b ∈ bs, b.1 < b.2) : bs.Pairwise (fun p q : ℚ × ℚ => p.1 < q.1) := by
  haveI : IsTrans (ℚ × ℚ) (fun p q : ℚ × ℚ => p.1 < q.1) :=
    ⟨fun _ _ _ => lt_trans⟩
  exact List.chain'_iff_pairwise.mp (chain_fst_of_contiguous bs hc hw)

theorem pairwise_snd_of_contiguous (bs : List (ℚ × ℚ)) (hc : Contiguous bs)
    (hw : ∀ b ∈ bs, b.1 < b.2) : bs.Pairwise (fun p q : ℚ × ℚ => p.2 < q.2) := by
  haveI : IsTrans (ℚ × ℚ) (fun p q : ℚ × ℚ => p.2 < q.2) :=
    ⟨fun _ _ _ => lt_trans⟩
  exact List.chain'_iff_pairwise.mp (chain_snd_of_contiguous bs hc hw)

theorem keptIndices_eq_nil (a : Axis) (lo hi : ℚ)
    (h : ∀ b ∈ cellBounds a, overlapB b lo hi = false) :
    keptIndices a lo hi = [] := by
  rw [keptIndices, List.filter_eq_nil_iff]
  intro i hi'
  by_cases hlen : i < (cellBounds a).length
  · rw [List.getD_eq_getElem _ _ hlen]
    exact fun hh => by
      rw [h _ (List.getElem_mem hlen)] at hh
      exact Bool.false_ne_true hh
  · rw [List.getD_eq_default _ _ (le_of_not_lt hlen)]
    intro hh
    exact absurd (overlapB_width _ _ _ hh) (lt_irrefl 0)

theorem overlapB_zero_width (b : ℚ × ℚ) (c : ℚ) : overlapB b c c = false := by
  rw [overlapB, decide_eq_false_iff_not]
  exact not_lt.mpr (le_trans (min_le_left _ _) (le_max_left _ _))

/-- A box disjoint from an axis's covered extent overlaps none of its
cells (uses that the lower bounds increase and the upper bounds increase
along an invariant-satisfying axis). -/
theorem keptIndices_eq_nil_of_outside (a : Axis) (lo hi : ℚ) (hinv : AxisInv a)
    (hout : hi < coverageLo a ∨ coverageHi a < lo) :
    keptIndices a lo hi = [] := by
  apply keptIndices_eq_nil
  intro b hb
  rw [← Bool.not_eq_true, overlapB, decide_eq_true_eq, not_lt]
  rcases hmem : a.bounds with _ | bs
  · rcases List.mem_map.mp (by rw [cellBounds, hmem] at hb; exact hb) with ⟨p, _, hp⟩
    calc min hi b.2 ≤ b.2 := min_le_right _ _
    _ = b.1 := by rw [← hp]
    _ ≤ max lo b.1 := le_max_right _ _
  · have hbs : cellBounds a = bs := by rw [cellBounds, hmem]
    obtain ⟨_, hcont, hw⟩ := hinv.2 bs hmem
    rw [hbs] at hb
    obtain ⟨k, hk, hbk⟩ := List.getElem_of_mem hb
    have hne : bs ≠ [] := by intro hnil; rw [hnil] at hb; exact absurd hb (List.not_mem_nil b)
    rcases hout with hout | hout
    · have hle : (bs.getD 0 (0, 0)).1 ≤ b.1 := by
        rw [← hbk, ← List.getD_eq_getElem _ (0, 0) hk]
        rcases Nat.eq_zero_or_pos k with h0 | h0
        · rw [h0]
        · exact le_of_lt (pairwise_getD bs (0, 0)
            (pairwise_fst_of_contiguous bs hcont hw) h0 hk)
      refine le_of_lt ?_
      calc min hi b.2 ≤ hi := min_le_left _ _
      _ < (bs.getD 0 (0, 0)).1 := by rw [coverageLo, hbs] at hout; exact hout
      _ ≤ b.1 := hle
      _ ≤ max lo b.1 := le_max_right _ _
    · have hge : b.2 ≤ (bs.getD (bs.length - 1) (0, 0)).2 := by
        rw [← hbk, ← List.getD_eq_getElem _ (0, 0) hk]
        rcases Nat.lt_or_ge k (bs.length - 1) with hlt | hge'
        · exact le_of_lt (pairwise_getD bs (0, 0)
            (pairwise_snd_of_contiguous bs hcont hw) hlt (by omega))
        · have hkeq : k = bs.length - 1 := by omega
          rw [hkeq]
      calc min hi b.2 ≤ b.2 := min_le_right _ _
      _ ≤ (bs.getD (bs.length - 1) (0, 0)).2 := hge
      _ ≤ lo := le_of_lt (by rw [coverageHi, hbs] at hout; exact hout)
      _ ≤ max lo b.1 := le_max_left _ _

theorem linspace_pairwise (a b : ℚ) (n : ℕ) (h : a < b) :
    (linspace a b n).Pairwise (· < ·) := by
  rw [List.pairwise_iff_getElem]
  intro i j hi hj hij
  rw [length_linspace] at hi hj
  rw [← List.getD_eq_getElem _ 0, ← List.getD_eq_getElem _ 0]
  rw [getD_linspace _ _ _ _ hi, getD_linspace _ _ _ _ hj]
  have hn2 : 2 ≤ n := by omega
  have hd : 0 < (b - a) / ((n : ℚ) - 1) := by
    apply div_pos (by linarith)
    have : (2 : ℚ) ≤ (n : ℚ) := by exact_mod_cast hn2
    linarith
  have hij' : (i : ℚ) < (j : ℚ) := by exact_mod_cast hij
  nlinarith

theorem linspace_step (a b : ℚ) (n i : ℕ) (hi : i + 1 < n) :
    (linspace a b n).getD (i + 1) 0 - (linspace a b n).getD i 0 =
      (b - a) / ((n : ℚ) - 1) := by
  rw [getD_linspace _ _ _ _ hi, getD_linspace _ _ _ _ (by omega)]
  push_cast
  ring

theorem linspace_first (a b : ℚ) (n : ℕ) (hn : 1 ≤ n) :
    (linspace a b n).getD 0 0 = a := by
  rw [getD_linspace _ _ _ _ (by omega)]
  norm_num

theorem linspace_last (a b : ℚ) (n : ℕ) (hn : 2 ≤ n) :
    (linspace a b n).getD (n - 1) 0 = b := by
  rw [getD_linspace _ _ _ _ (by omega)]
  have hne : ((n : ℚ) - 1) ≠ 0 := by
    have : (2 : ℚ) ≤ (n : ℚ) := by exact_mod_cast hn
    linarith
  have hcast : ((n - 1 : ℕ) : ℚ) = (n : ℚ) - 1 := by
    have : 1 ≤ n := by omega
    push_cast [Nat.cast_sub this]
    ring
  rw [hcast]
  field_simp

theorem makeTargetGrid_axis0_points (lat0 lat1 lon0 lon1 : ℚ) (n m : ℕ) (fill : ℚ) :
    (makeTargetGrid lat0 lat1 lon0 lon1 n m fill).axis0.points = linspace lat0 lat1 n :=
  rfl

theorem makeTargetGrid_axis1_points (lat0 lat1 lon0 lon1 : ℚ) (n m : ℕ) (fill : ℚ) :
    (makeTargetGrid lat0 lat1 lon0 lon1 n m fill).axis1.points = linspace lon0 lon1 m :=
  rfl

theorem guessBounds_inner_lo (xs : List ℚ) (i : ℕ) (h : i + 1 < xs.length) :
    ((guessBounds xs).getD (i + 1) (0, 0)).1 =
      (xs.getD i 0 + xs.getD (i + 1) 0) / 2 := by
  rw [getD_guessBounds _ _ (by omega)]
  simp

theorem guessBounds_inner_hi (xs : List ℚ) (i : ℕ) (h : i + 1 < xs.length) :
    ((guessBounds xs).getD i (0, 0)).2 =
      (xs.getD i 0 + xs.getD (i + 1) 0) / 2 := by
  rw [getD_guessBounds _ _ (by omega)]
  have : i ≠ xs.length - 1 := by omega
  simp [this]

theorem guessBounds_first_sym (xs : List ℚ) (h : 2 ≤ xs.length) :
    ((guessBounds xs).getD 0 (0, 0)).1 =
      2 * xs.getD 0 0 - ((guessBounds xs).getD 0 (0, 0)).2 := by
  rw [getD_guessBounds _ _ (by omega)]
  have : ¬(0 = xs.length - 1) := by omega
  simp only [eq_self_iff_true, if_true, if_neg this]
  ring

theorem guessBounds_last_sym (xs : List ℚ) (h : 2 ≤ xs.length) :
    ((guessBounds xs).getD (xs.length - 1) (0, 0)).2 =
      2 * xs.getD (xs.length - 1) 0 -
        ((guessBounds xs).getD (xs.length - 1) (0, 0)).1 := by
  rw [getD_guessBounds _ _ (by omega)]
  have : ¬(xs.length - 1 = 0) := by omega
  simp only [eq_self_iff_true, if_true, if_neg this]
  ring

theorem ensureBounds_isSome (a : Axis) : (ensureBounds a).bounds.isSome := by
  rcases h : a.bounds with _ | bs
  · simp [ensureBounds, h]
  · simp [ensureBounds, h]

theorem ensureBounds_some (a : Axis) (bs : List (ℚ × ℚ)) (h : a.bounds = some bs) :
    (ensureBounds a).bounds = some bs := by
  simp [ensureBounds, h]

theorem ensureBounds_none (a : Axis) (h : a.bounds = none) :
    (ensureBounds a).bounds = some (guessBounds a.points) := by
  simp [ensureBounds, h]

theorem convex_combo_bounds (tx ty v00 v01 v10 v11 : ℚ)
    (htx0 : 0 ≤ tx) (htx1 : tx ≤ 1) (hty0 : 0 ≤ ty) (hty1 : ty ≤ 1) :
    min (min v00 v01) (min v10 v11) ≤
      (1 - tx) * (1 - ty) * v00 + (1 - tx) * ty * v01 +
        tx * (1 - ty) * v10 + tx * ty * v11 ∧
    (1 - tx) * (1 - ty) * v00 + (1 - tx) * ty * v01 +
        tx * (1 - ty) * v10 + tx * ty * v11 ≤
      max (max v00 v01) (max v10 v11) := by
  have hm00 : min (min v00 v01) (min v10 v11) ≤ v00 :=
    le_trans (min_le_left _ _) (min_le_left _ _)
  have hm01 : min (min v00 v01) (min v10 v11) ≤ v01 :=
    le_trans (min_le_left _ _) (min_le_right _ _)
  have hm10 : min (min v00 v01) (min v10 v11) ≤ v10 :=
    le_trans (min_le_right _ _) (min_le_left _ _)
  have hm11 : min (min v00 v01) (min v10 v11) ≤ v11 :=
    le_trans (min_le_right _ _) (min_le_right _ _)
  have hM00 : v00 ≤ max (max v00 v01) (max v10 v11) :=
    le_trans (le_max_left _ _) (le_max_left _ _)
  have hM01 : v01 ≤ max (max v00 v01) (max v10 v11) :=
    le_trans (le_max_right _ _) (le_max_left _ _)
  have hM10 : v10 ≤ max (max v00 v01) (max v10 v11) :=
    le_trans (le_max_left _ _) (le_max_right _ _)
  have hM11 : v11 ≤ max (max v00 v01) (max v10 v11) :=
    le_trans (le_max_right _ _) (le_max_right _ _)
  have w00 : 0 ≤ (1 - tx) * (1 - ty) := mul_nonneg (by linarith) (by linarith)
  have w01 : 0 ≤ (1 - tx) * ty := mul_nonneg (by linarith) hty0
  have w10 : 0 ≤ tx * (1 - ty) := mul_nonneg htx0 (by linarith)
  have w11 : 0 ≤ tx * ty := mul_nonneg htx0 hty0
  constructor
  · nlinarith [mul_nonneg w00 (sub_nonneg.mpr hm00),
      mul_nonneg w01 (sub_nonneg.mpr hm01),
      mul_nonneg w10 (sub_nonneg.mpr hm10),
      mul_nonneg w11 (sub_nonneg.mpr hm11)]
  · nlinarith [mul_nonneg w00 (sub_nonneg.mpr hM00),
      mul_nonneg w01 (sub_nonneg.mpr hM01),
      mul_nonneg w10 (sub_nonneg.mpr hM10),
      mul_nonneg w11 (sub_nonneg.mpr hM11)]

theorem getD_map_of_lt {α β : Type} (f : α → β) (l : List α) (i : ℕ)
    (hi : i < l.length) (d : β) (d' : α) :
    (l.map f).getD i d = f (l.getD i d') := by
  rw [List.getD_eq_getElem (l.map f) d
    (show i < (l.map f).length by rw [List.length_map]; exact hi)]
  rw [List.getElem_map]
  rw [List.getD_eq_getElem l d' hi]

theorem getV_regrid (src tgt : GriddedField) (proj : ℚ → ℚ → ℚ × ℚ) (i j : ℕ)
    (hi : i < tgt.axis0.points.length) (hj : j < tgt.axis1.points.length) :
    getV (regrid src tgt proj).values i j =
      bilinear src.axis0.points src.axis1.points src.values
        (proj (tgt.axis0.points.getD i 0) (tgt.axis1.points.getD j 0)).1
        (proj (tgt.axis0.points.getD i 0) (tgt.axis1.points.getD j 0)).2 := by
  rw [getV, regrid]
  dsimp only
  rw [getD_map_of_lt _ tgt.axis0.points i hi [] 0]
  rw [getD_map_of_lt _ tgt.axis1.points j hj none 0]

theorem keptIndices_eq_range (a : Axis) (lo hi : ℚ)
    (hlen : (cellBounds a).length = a.points.length)
    (hw : ∀ b ∈ cellBounds a, b.1 < b.2)
    (hcov : ∀ b ∈ cellBounds a, lo ≤ b.1 ∧ b.2 ≤ hi) :
    keptIndices a lo hi = List.range a.points.length := by
  rw [keptIndices]
  apply List.filter_eq_self.mpr
  intro i hi'
  rw [List.mem_range] at hi'
  have hb : (cellBounds a).getD i (0, 0) ∈ cellBounds a := by
    rw [List.getD_eq_getElem _ _ (by rw [hlen]; exact hi')]
    exact List.getElem_mem _
  rw [overlapB, decide_eq_true_eq]
  rw [max_eq_right (hcov _ hb).1, min_eq_right (hcov _ hb).2]
  exact hw _ hb

theorem filter_range_adjacent (n : ℕ) (p : ℕ → Bool)
    (hconv : ∀ i j k, i ≤ j → j ≤ k → p i = true → p k = true → p j = true) :
    List.Chain' (fun a b => b = a + 1) ((List.range n).filter p) := by
  have hsort : ((List.range n).filter p).Pairwise (· < ·) :=
    (List.pairwise_lt_range n).filter p
  rw [List.chain'_iff_get]
  intro t ht
  simp only [List.get_eq_getElem]
  by_contra hne
  have h2 : t + 1 < ((List.range n).filter p).length := by omega
  have ht' : t < ((List.range n).filter p).length := by omega
  have hlt : ((List.range n).filter p)[t] < ((List.range n).filter p)[t+1] :=
    List.pairwise_iff_getElem.mp hsort t (t+1) ht' h2 (by omega)
  have hmema := List.getElem_mem ht'
  have hmemc := List.getElem_mem h2
  have hpa : p (((List.range n).filter p)[t]) = true := (List.mem_filter.mp hmema).2
  have hpc : p (((List.range n).filter p)[t+1]) = true := (List.mem_filter.mp hmemc).2
  have hcn : ((List.range n).filter p)[t+1] < n :=
    List.mem_range.mp (List.mem_filter.mp hmemc).1
  have hmid : p (((List.range n).filter p)[t] + 1) = true :=
    hconv _ _ _ (by omega) (by omega) hpa hpc
  have hmemmid : ((List.range n).filter p)[t] + 1 ∈ (List.range n).filter p :=
    List.mem_filter.mpr ⟨List.mem_range.mpr (by omega), hmid⟩
  obtain ⟨u, hu, huv⟩ := List.getElem_of_mem hmemmid
  rcases Nat.lt_trichotomy u t with h | h | h
  · have := List.pairwise_iff_getElem.mp hsort u t hu ht' h
    omega
  · subst h
    omega
  · rcases Nat.eq_or_lt_of_le (by omega : t + 1 ≤ u) with h' | h'
    · subst h'
      exact hne huv
    · have := List.pairwise_iff_getElem.mp hsort (t+1) u h2 hu h'
      omega

theorem contiguous_getD (bs : List (ℚ × ℚ)) (hc : Contiguous bs) (i : ℕ)
    (h : i + 1 < bs.length) :
    (bs.getD i (0, 0)).2 = (bs.getD (i + 1) (0, 0)).1 := by
  have := List.chain'_iff_get.mp hc i (by omega)
  simp only [List.get_eq_getElem] at this
  rw [List.getD_eq_getElem _ _ (by omega), List.getD_eq_getElem _ _ h]
  exact this

theorem contiguous_map_getD (bs : List (ℚ × ℚ)) (hc : Contiguous bs) :
    ∀ l : List ℕ, List.Chain' (fun a b => b = a + 1) l →
    (∀ x ∈ l, x < bs.length) →
    Contiguous (l.map (fun i => bs.getD i (0, 0)))
  | [], _, _ => List.chain'_nil
  | [_], _, _ => List.chain'_singleton _
  | a :: b :: t, hch, hmem => by
    rw [List.map_cons, List.map_cons, Contiguous, List.chain'_cons]
    rw [List.chain'_cons] at hch
    refine ⟨?_, contiguous_map_getD bs hc (b :: t) hch.2
      (fun x hx => hmem x (List.mem_cons_of_mem a hx))⟩
    have hb : b = a + 1 := hch.1
    have hblen : b < bs.length := hmem b (List.mem_cons_of_mem a (List.mem_cons_self b t))
    subst hb
    exact contiguous_getD bs hc a hblen

theorem pairwise_map_getD_lt (xs : List ℚ) (hm : xs.Pairwise (· < ·)) (l : List ℕ)
    (hl : l.Pairwise (· < ·)) (hmem : ∀ x ∈ l, x < xs.length) :
    (l.map (fun i => xs.getD i 0)).Pairwise (· < ·) := by
  rw [List.pairwise_map]
  exact List.Pairwise.imp_of_mem
    (fun ha hb hab => pairwise_getD_lt xs hm hab (hmem _ hb)) hl

theorem overlap_convex (bs : List (ℚ × ℚ)) (hc : Contiguous bs)
    (hw : ∀ b ∈ bs, b.1 < b.2) (lo hi : ℚ) :
    ∀ i j k, i ≤ j → j ≤ k →
    overlapB (bs.getD i (0, 0)) lo hi = true →
    overlapB (bs.getD k (0, 0)) lo hi = true →
    overlapB (bs.getD j (0, 0)) lo hi = true := by
  intro i j k hij hjk hi' hk'
  have hklen : k < bs.length := by
    by_contra hge
    rw [List.getD_eq_default _ _ (by omega)] at hk'
    exact absurd (overlapB_width _ _ _ hk') (lt_irrefl 0)
  have hjlen : j < bs.length := by omega
  have hmem : bs.getD j (0, 0) ∈ bs := by
    rw [List.getD_eq_getElem _ _ hjlen]
    exact List.getElem_mem _
  have hfst : (bs.getD j (0, 0)).1 ≤ (bs.getD k (0, 0)).1 := by
    rcases Nat.eq_or_lt_of_le hjk with h | h
    · rw [h]
    · exact le_of_lt (pairwise_getD bs (0, 0)
        (pairwise_fst_of_contiguous bs hc hw) h hklen)
  have hsnd : (bs.getD i (0, 0)).2 ≤ (bs.getD j (0, 0)).2 := by
    rcases Nat.eq_or_lt_of_le hij with h | h
    · rw [h]
    · exact le_of_lt (pairwise_getD bs (0, 0)
        (pairwise_snd_of_contiguous bs hc hw) h hjlen)
  rw [overlapB, decide_eq_true_eq] at hi' hk' ⊢
  have hlohi : lo < hi :=
    lt_of_le_of_lt (le_max_left _ _) (lt_of_lt_of_le hi' (min_le_left _ _))
  have hlo2 : lo < (bs.getD i (0, 0)).2 :=
    lt_of_le_of_lt (le_max_left _ _) (lt_of_lt_of_le hi' (min_le_right _ _))
  have hk1 : (bs.getD k (0, 0)).1 < hi :=
    lt_of_le_of_lt (le_max_right _ _) (lt_of_lt_of_le hk' (min_le_left _ _))
  exact max_lt (lt_min hlohi (lt_of_lt_of_le hlo2 hsnd))
    (lt_min (lt_of_le_of_lt hfst hk1) (hw _ hmem))

theorem guessBounds_contiguous (xs : List ℚ) : Contiguous (guessBounds xs) := by
  rw [Contiguous, List.chain'_iff_get]
  intro i hi
  simp only [List.get_eq_getElem]
  rw [length_guessBounds] at hi
  have h1 := guessBounds_inner_hi xs i (by omega)
  have h2 := guessBounds_inner_lo xs i (by omega)
  rw [List.getD_eq_getElem (guessBounds xs) (0, 0)
    (show i < (guessBounds xs).length by rw [length_guessBounds]; omega)] at h1
  rw [List.getD_eq_getElem (guessBounds xs) (0, 0)
    (show i + 1 < (guessBounds xs).length by rw [length_guessBounds]; omega)] at h2
  exact h1.trans h2.symm

theorem guessBounds_width (xs : List ℚ) (hm : xs.Pairwise (· < ·))
    (h2 : 2 ≤ xs.length) : ∀ b ∈ guessBounds xs, b.1 < b.2 := by
  intro b hb
  obtain ⟨k, hk, hbk⟩ := List.getElem_of_mem hb
  rw [length_guessBounds] at hk
  subst hbk
  rw [← List.getD_eq_getElem (guessBounds xs) (0, 0)
    (show k < (guessBounds xs).length by rw [length_guessBounds]; omega)]
  rw [getD_guessBounds xs k hk]
  by_cases hk0 : k = 0
  · subst hk0
    have hne : ¬(0 = xs.length - 1) := by omega
    simp only [eq_self_iff_true, if_true, if_neg hne]
    have : xs.getD 0 0 < xs.getD 1 0 := pairwise_getD_lt xs hm (by omega) (by omega)
    linarith
  · by_cases hkl : k = xs.length - 1
    · simp only [if_neg hk0, if_pos hkl]
      have : xs.getD (k - 1) 0 < xs.getD k 0 :=
        pairwise_getD_lt xs hm (by omega) hk
      linarith
    · simp only [if_neg hk0, if_neg hkl]
      have : xs.getD (k - 1) 0 < xs.getD (k + 1) 0 :=
        pairwise_getD_lt xs hm (by omega) (by omega)
      linarith

theorem ensureBounds_points (a : Axis) : (ensureBounds a).points = a.points := by
  rcases hb : a.bounds with _ | bs <;> simp [ensureBounds, hb]

theorem axisInv_ensureBounds (a : Axis) (ha : AxisInv a)
    (h2 : a.bounds = none → 2 ≤ a.points.length) : AxisInv (ensureBounds a) := by
  rcases hb : a.bounds with _ | bs
  · have he : ensureBounds a = { points := a.points, bounds := some (guessBounds a.points) } := by
      unfold ensureBounds
      rw [hb]
    rw [he]
    refine ⟨ha.1, fun bs' hbs' => ?_⟩
    injection hbs' with h
    subst h
    exact ⟨length_guessBounds _, guessBounds_contiguous _,
      guessBounds_width _ ha.1 (h2 hb)⟩
  · have he : ensureBounds a = a := by
      unfold ensureBounds
      rw [hb]
    rw [he]
    exact ha

theorem axisInv_restrictAxis (a : Axis) (lo hi : ℚ) (ha : AxisInv a) :
    AxisInv (restrictAxis a lo hi) := by
  obtain ⟨hm, hb⟩ := ha
  constructor
  · rw [restrictAxis]
    exact pairwise_map_getD_lt a.points hm _ (keptIndices_pairwise a lo hi)
      (fun x hx => ((mem_keptIndices a lo hi x).mp hx).1)
  · intro bs' hbs'
    rcases hab : a.bounds with _ | bs
    · simp [restrictAxis, hab] at hbs'
    · obtain ⟨hlen, hcont, hw⟩ := hb bs hab
      have hcb : cellBounds a = bs := by rw [cellBounds, hab]
      simp only [restrictAxis, hab, Option.some.injEq] at hbs'
      subst hbs'
      refine ⟨?_, ?_, ?_⟩
      · rw [restrictAxis]
        rw [List.length_map, List.length_map]
      · apply contiguous_map_getD bs hcont
        · rw [keptIndices, hcb]
          exact filter_range_adjacent _ _ (overlap_convex bs hcont hw lo hi)
        · intro x hx
          rw [hlen]
          exact ((mem_keptIndices a lo hi x).mp hx).1
      · intro b hbmem
        rcases List.mem_map.mp hbmem with ⟨i, hik, rfl⟩
        have hilen : i < bs.length := by
          rw [hlen]
          exact ((mem_keptIndices a lo hi i).mp hik).1
        have hmemb : bs.getD i (0, 0) ∈ bs := by
          rw [List.getD_eq_getElem _ _ hilen]
          exact List.getElem_mem _
        exact hw _ hmemb

theorem fieldInv_loaderPost (f : GriddedField) (hf : FieldInv f)
    (h0 : f.axis0.bounds = none → 2 ≤ f.axis0.points.length)
    (h1 : f.axis1.bounds = none → 2 ≤ f.axis1.points.length) :
    FieldInv (loaderPost f) := by
  obtain ⟨hv, hr, ha0, ha1⟩ := hf
  refine ⟨?_, ?_, axisInv_ensureBounds _ ha0 h0, axisInv_ensureBounds _ ha1 h1⟩
  · rw [loaderPost]
    dsimp only
    rw [ensureBounds_points]
    exact hv
  · rw [loaderPost]
    dsimp only
    rw [ensureBounds_points]
    exact hr

theorem fieldInv_makeTargetGrid (lat0 lat1 lon0 lon1 : ℚ) (n m : ℕ) (fill : ℚ)
    (hlat : lat0 < lat1) (hlon : lon0 < lon1) (hn : 2 ≤ n) (hm : 2 ≤ m) :
    FieldInv (makeTargetGrid lat0 lat1 lon0 lon1 n m fill) := by
  refine ⟨?_, ?_, ?_, ?_⟩
  · rw [makeTargetGrid]
    dsimp only
    rw [List.length_replicate, length_linspace]
  · intro row hrow
    rw [makeTargetGrid] at hrow
    dsimp only at hrow
    rw [List.eq_of_mem_replicate hrow]
    rw [makeTargetGrid]
    dsimp only
    rw [List.length_replicate, length_linspace]
  · refine ⟨linspace_pairwise _ _ _ hlat, fun bs hbs => ?_⟩
    injection hbs with h
    subst h
    exact ⟨length_guessBounds _, guessBounds_contiguous _,
      guessBounds_width _ (linspace_pairwise _ _ _ hlat)
        (by rw [length_linspace]; exact hn)⟩
  · refine ⟨linspace_pairwise _ _ _ hlon, fun bs hbs => ?_⟩
    injection hbs with h
    subst h
    exact ⟨length_guessBounds _, guessBounds_contiguous _,
      guessBounds_width _ (linspace_pairwise _ _ _ hlon)
        (by rw [length_linspace]; exact hm)⟩

theorem fieldInv_regrid (src tgt : GriddedField) (proj : ℚ → ℚ → ℚ × ℚ)
    (ht : FieldInv tgt) : FieldInv (regrid src tgt proj) := by
  obtain ⟨_, _, ha0, ha1⟩ := ht
  refine ⟨?_, ?_, ha0, ha1⟩
  · rw [regrid]
    dsimp only
    rw [List.length_map]
  · intro row hrow
    rw [regrid] at hrow
    dsimp only at hrow
    rcases List.mem_map.mp hrow with ⟨ta, _, rfl⟩
    rw [regrid]
    dsimp only
    rw [List.length_map]

theorem fieldInv_intersection (f : GriddedField) (box : Box) (hf : FieldInv f) :
    FieldInv (intersection f box) := by
  obtain ⟨_, _, ha0, ha1⟩ := hf
  refine ⟨?_, ?_, axisInv_restrictAxis _ _ _ ha0, axisInv_restrictAxis _ _ _ ha1⟩
  · rw [intersection]
    dsimp only
    rw [List.length_map, restrictAxis]
    dsimp only
    rw [List.length_map]
  · intro row hrow
    rw [intersection] at hrow
    dsimp only at hrow
    rcases List.mem_map.mp hrow with ⟨i, _, rfl⟩
    rw [intersection]
    dsimp only
    rw [List.length_map, restrictAxis]
    dsimp only
    rw [List.length_map]

/-! ## Claim theorems -/

theorem axisInv_some (ps : List ℚ) (l : List (ℚ × ℚ)) (h1 : ps.Pairwise (· < ·))
    (h2 : l.length = ps.length) (h3 : Contiguous l) (h4 : ∀ b ∈ l, b.1 < b.2) :
    AxisInv { points := ps, bounds := some l } := by
  refine ⟨h1, fun bs hbs => ?_⟩
  injection hbs with h
  subst h
  exact ⟨h2, h3, h4⟩

/-- C2: a bounding box that selects no cells is "no data", not an error:
on an invariant-satisfying axis, a box disjoint from the field's covered
extent in latitude (resp. longitude) produces a zero-length latitude
(resp. longitude) axis — both zero when disjoint in both — and extracting
a zero-width longitude box (such as `lon ∈ [0.3, 0.3]`) from any field
yields a zero-length longitude axis. -/
theorem intersection_no_data (f : GriddedField) (box : Box) :
    (AxisInv f.axis0 →
      box.lat1 < coverageLo f.axis0 ∨ coverageHi f.axis0 < box.lat0 →
      (intersection f box).axis0.points.length = 0) ∧
    (AxisInv f.axis1 →
      box.lon1 < coverageLo f.axis1 ∨ coverageHi f.axis1 < box.lon0 →
      (intersection f box).axis1.points.length = 0) ∧
    (AxisInv f.axis0 → AxisInv f.axis1 →
      (box.lat1 < coverageLo f.axis0 ∨ coverageHi f.axis0 < box.lat0) ∨
      (box.lon1 < coverageLo f.axis1 ∨ coverageHi f.axis1 < box.lon0) →
      (intersection f box).axis0.points.length = 0 ∨
      (intersection f box).axis1.points.length = 0) ∧
    (box.lon0 = box.lon1 → (intersection f box).axis1.points.length = 0) := by
  have hlat : AxisInv f.axis0 →
      box.lat1 < coverageLo f.axis0 ∨ coverageHi f.axis0 < box.lat0 →
      (intersection f box).axis0.points.length = 0 := by
    intro hinv hout
    rw [intersection]
    rw [length_restrictAxis, keptIndices_eq_nil_of_outside f.axis0 _ _ hinv hout]
    rfl
  have hlon : AxisInv f.axis1 →
      box.lon1 < coverageLo f.axis1 ∨ coverageHi f.axis1 < box.lon0 →
      (intersection f box).axis1.points.length = 0 := by
    intro hinv hout
    rw [intersection]
    rw [length_restrictAxis, keptIndices_eq_nil_of_outside f.axis1 _ _ hinv hout]
    rfl
  refine ⟨hlat, hlon, ?_, fun hzero => ?_⟩
  · intro hinv0 hinv1 hout
    rcases hout with hout | hout
    · exact Or.inl (hlat hinv0 hout)
    · exact Or.inr (hlon hinv1 hout)
  · rw [intersection]
    rw [length_restrictAxis]
    rw [keptIndices_eq_nil f.axis1 box.lon0 box.lon1
      (fun b _ => by rw [hzero]; exact overlapB_zero_width b box.lon1)]
    rfl

/-- Witness for C2: a concrete 2×2 field, a box disjoint from its coverage,
and the zero-width box `lon ∈ [0.3, 0.3]`. -/
theorem intersection_no_data_witness :
    (intersection
        { axis0 := { points := [0, 1], bounds := some [(-1/2, 1/2), (1/2, 3/2)] }
          axis1 := { points := [0, 1], bounds := some [(-1/2, 1/2), (1/2, 3/2)] }
          values := [[some 1, some 2], [some 3, some 4]] }
        { lat0 := 5, lat1 := 6, lon0 := 0, lon1 := 1 }).axis0.points.length = 0 ∧
    (intersection
        { axis0 := { points := [0, 1], bounds := some [(-1/2, 1/2), (1/2, 3/2)] }
          axis1 := { points := [0, 1], bounds := some [(-1/2, 1/2), (1/2, 3/2)] }
          values := [[some 1, some 2], [some 3, some 4]] }
        { lat0 := 0, lat1 := 1, lon0 := 3/10, lon1 := 3/10 }).axis1.points.length = 0 := by
  constructor
  · exact (intersection_no_data _ _).1
      (axisInv_some _ _ (by norm_num [List.pairwise_cons])
        (by norm_num)
        (by norm_num [Contiguous, List.chain'_cons, List.chain'_singleton])
        (by norm_num [List.forall_mem_cons]))
      (Or.inr (by norm_num [coverageHi, cellBounds]))
  · exact (intersection_no_data _ _).2.2.2 rfl

/-- C5: the extraction edge policy — a cell is included iff its bounds
interval overlaps the requested interval at all; partial overlap is
included and containment of the cell in the box is not required.  On axes
with strictly monotone cell centers, the cell center `points[i]` survives
into the extracted field exactly when the cell's bounds interval overlaps
the box's interval for that axis. -/
theorem intersection_overlap_policy (f : GriddedField) (box : Box)
    (hm0 : f.axis0.points.Pairwise (· < ·))
    (hm1 : f.axis1.points.Pairwise (· < ·)) :
    (∀ i, i < f.axis0.points.length →
      (f.axis0.points.getD i 0 ∈ (intersection f box).axis0.points ↔
        overlapB ((cellBounds f.axis0).getD i (0, 0)) box.lat0 box.lat1 = true)) ∧
    (∀ i, i < f.axis1.points.length →
      (f.axis1.points.getD i 0 ∈ (intersection f box).axis1.points ↔
        overlapB ((cellBounds f.axis1).getD i (0, 0)) box.lon0 box.lon1 = true)) := by
  have key : ∀ (a : Axis) (lo hi : ℚ), a.points.Pairwise (· < ·) →
      ∀ i, i < a.points.length →
      (a.points.getD i 0 ∈ (restrictAxis a lo hi).points ↔
        overlapB ((cellBounds a).getD i (0, 0)) lo hi = true) := by
    intro a lo hi hm i hi'
    rw [restrictAxis]
    simp only [List.mem_map]
    constructor
    · rintro ⟨j, hjk, hjeq⟩
      obtain ⟨hjlen, hjov⟩ := (mem_keptIndices a lo hi j).mp hjk
      rcases lt_trichotomy j i with hlt | hEq | hgt
      · exact absurd hjeq (ne_of_lt (pairwise_getD a.points 0 hm hlt hi'))
      · rw [← hEq]; exact hjov
      · exact absurd hjeq (ne_of_gt (pairwise_getD a.points 0 hm hgt hjlen))
    · intro hov
      exact ⟨i, (mem_keptIndices a lo hi i).mpr ⟨hi', hov⟩, rfl⟩
  exact ⟨key f.axis0 box.lat0 box.lat1 hm0, key f.axis1 box.lon0 box.lon1 hm1⟩

/-- Witness for C5: a cell that only partially overlaps the box (bounds
`[-1/2, 1/2]`, box `[0.2, 5]`: the cell is not contained in the box) is
included, at a concrete field. -/
theorem intersection_overlap_policy_witness :
    ((0 : ℚ) ∈ (intersection
        { axis0 := { points := [0, 1], bounds := some [(-1/2, 1/2), (1/2, 3/2)] }
          axis1 := { points := [0, 1], bounds := some [(-1/2, 1/2), (1/2, 3/2)] }
          values := [[some 1, some 2], [some 3, some 4]] }
        { lat0 := 0, lat1 := 1, lon0 := 1/5, lon1 := 5 }).axis1.points ↔
      overlapB (-1/2, 1/2) (1/5) 5 = true) :=
  by simpa using
    (intersection_overlap_policy
      { axis0 := { points := [0, 1], bounds := some [(-1/2, 1/2), (1/2, 3/2)] }
        axis1 := { points := [0, 1], bounds := some [(-1/2, 1/2), (1/2, 3/2)] }
        values := [[some 1, some 2], [some 3, some 4]] }
      { lat0 := 0, lat1 := 1, lon0 := 1/5, lon1 := 5 }
      (by norm_num [List.pairwise_cons]) (by norm_num [List.pairwise_cons])).2 0 (by norm_num)

/-- C3, counterexample to the unrestricted claim: with a single cell per
axis (`n = m = 1`, extents `0 < 1`), numpy's `linspace` produces the
one-element axis `[lat0]`, whose last element is `0`, not the upper extent
`1` — so "last element exactly lat1" fails for cell count 1. -/
theorem makeTargetGrid_last_counterexample :
    (makeTargetGrid 0 1 0 1 1 1 0).axis0.points.getLast? ≠ some 1 := by
  have : (makeTargetGrid 0 1 0 1 1 1 0).axis0.points = [0] := by
    rw [makeTargetGrid_axis0_points, linspace]
    norm_num [List.range_succ]
  rw [this]
  norm_num [List.getLast?]

/-- C3 (amended: for cell counts at least 2): for every extents pair with
`lat0 < lat1`, `lon0 < lon1` and every cell-count pair `(n, m)` with
`2 ≤ n`, `2 ≤ m`, the target-grid constructor returns a field whose
latitude axis has exactly `n` entries and longitude axis exactly `m`,
each strictly monotonically increasing, evenly spaced, with first element
exactly `lat0` (resp. `lon0`) and last exactly `lat1` (resp. `lon1`). -/
theorem makeTargetGrid_axes (lat0 lat1 lon0 lon1 : ℚ) (n m : ℕ) (fill : ℚ)
    (hlat : lat0 < lat1) (hlon : lon0 < lon1) (hn : 2 ≤ n) (hm : 2 ≤ m) :
    (makeTargetGrid lat0 lat1 lon0 lon1 n m fill).axis0.points.length = n ∧
    (makeTargetGrid lat0 lat1 lon0 lon1 n m fill).axis1.points.length = m ∧
    (makeTargetGrid lat0 lat1 lon0 lon1 n m fill).axis0.points.Pairwise (· < ·) ∧
    (makeTargetGrid lat0 lat1 lon0 lon1 n m fill).axis1.points.Pairwise (· < ·) ∧
    (∀ i, i + 1 < n →
      (makeTargetGrid lat0 lat1 lon0 lon1 n m fill).axis0.points.getD (i + 1) 0 -
        (makeTargetGrid lat0 lat1 lon0 lon1 n m fill).axis0.points.getD i 0 =
        (lat1 - lat0) / ((n : ℚ) - 1)) ∧
    (∀ i, i + 1 < m →
      (makeTargetGrid lat0 lat1 lon0 lon1 n m fill).axis1.points.getD (i + 1) 0 -
        (makeTargetGrid lat0 lat1 lon0 lon1 n m fill).axis1.points.getD i 0 =
        (lon1 - lon0) / ((m : ℚ) - 1)) ∧
    (makeTargetGrid lat0 lat1 lon0 lon1 n m fill).axis0.points.getD 0 0 = lat0 ∧
    (makeTargetGrid lat0 lat1 lon0 lon1 n m fill).axis0.points.getD (n - 1) 0 = lat1 ∧
    (makeTargetGrid lat0 lat1 lon0 lon1 n m fill).axis1.points.getD 0 0 = lon0 ∧
    (makeTargetGrid lat0 lat1 lon0 lon1 n m fill).axis1.points.getD (m - 1) 0 = lon1 := by
  rw [makeTargetGrid_axis0_points, makeTargetGrid_axis1_points]
  exact ⟨length_linspace _ _ _, length_linspace _ _ _,
    linspace_pairwise _ _ _ hlat, linspace_pairwise _ _ _ hlon,
    fun i hi => linspace_step _ _ _ _ hi, fun i hi => linspace_step _ _ _ _ hi,
    linspace_first _ _ _ (by omega), linspace_last _ _ _ hn,
    linspace_first _ _ _ (by omega), linspace_last _ _ _ hm⟩

/-- Witness for C3 at extents `0 < 1` and counts `(2, 2)`. -/
theorem makeTargetGrid_axes_witness :
    (makeTargetGrid 0 1 0 1 2 2 0).axis0.points.length = 2 ∧
    (makeTargetGrid 0 1 0 1 2 2 0).axis0.points.getD 1 0 = 1 := by
  have h := makeTargetGrid_axes 0 1 0 1 2 2 0
    (by norm_num) (by norm_num) (by norm_num) (by norm_num)
  exact ⟨h.1, h.2.2.2.2.2.2.2.1⟩

/-- C4: after the Loader's post-parse step both spatial axes carry
explicit bounds, whether or not the source file supplied them (supplied
bounds are kept verbatim); for an axis lacking bounds the derived bound
between adjacent axis values is their midpoint, and the outer bound of
the first and last cell is extrapolated symmetrically about that cell's
center. -/
theorem loaderPost_bounds (f : GriddedField) :
    ((loaderPost f).axis0.bounds.isSome ∧ (loaderPost f).axis1.bounds.isSome) ∧
    (∀ bs, f.axis0.bounds = some bs → (loaderPost f).axis0.bounds = some bs) ∧
    (∀ bs, f.axis1.bounds = some bs → (loaderPost f).axis1.bounds = some bs) ∧
    (f.axis0.bounds = none →
      (loaderPost f).axis0.bounds = some (guessBounds f.axis0.points) ∧
      (∀ i, i + 1 < f.axis0.points.length →
        ((guessBounds f.axis0.points).getD (i + 1) (0, 0)).1 =
          (f.axis0.points.getD i 0 + f.axis0.points.getD (i + 1) 0) / 2 ∧
        ((guessBounds f.axis0.points).getD i (0, 0)).2 =
          (f.axis0.points.getD i 0 + f.axis0.points.getD (i + 1) 0) / 2) ∧
      (2 ≤ f.axis0.points.length →
        ((guessBounds f.axis0.points).getD 0 (0, 0)).1 =
          2 * f.axis0.points.getD 0 0 -
            ((guessBounds f.axis0.points).getD 0 (0, 0)).2 ∧
        ((guessBounds f.axis0.points).getD (f.axis0.points.length - 1) (0, 0)).2 =
          2 * f.axis0.points.getD (f.axis0.points.length - 1) 0 -
            ((guessBounds f.axis0.points).getD (f.axis0.points.length - 1) (0, 0)).1)) ∧
    (f.axis1.bounds = none →
      (loaderPost f).axis1.bounds = some (guessBounds f.axis1.points) ∧
      (∀ i, i + 1 < f.axis1.points.length →
        ((guessBounds f.axis1.points).getD (i + 1) (0, 0)).1 =
          (f.axis1.points.getD i 0 + f.axis1.points.getD (i + 1) 0) / 2 ∧
        ((guessBounds f.axis1.points).getD i (0, 0)).2 =
          (f.axis1.points.getD i 0 + f.axis1.points.getD (i + 1) 0) / 2) ∧
      (2 ≤ f.axis1.points.length →
        ((guessBounds f.axis1.points).getD 0 (0, 0)).1 =
          2 * f.axis1.points.getD 0 0 -
            ((guessBounds f.axis1.points).getD 0 (0, 0)).2 ∧
        ((guessBounds f.axis1.points).getD (f.axis1.points.length - 1) (0, 0)).2 =
          2 * f.axis1.points.getD (f.axis1.points.length - 1) 0 -
            ((guessBounds f.axis1.points).getD (f.axis1.points.length - 1) (0, 0)).1)) := by
  refine ⟨⟨ensureBounds_isSome _, ensureBounds_isSome _⟩,
    fun bs h => ensureBounds_some _ bs h, fun bs h => ensureBounds_some _ bs h,
    fun h => ⟨ensureBounds_none _ h,
      fun i hi => ⟨guessBounds_inner_lo _ i hi, guessBounds_inner_hi _ i hi⟩,
      fun h2 => ⟨guessBounds_first_sym _ h2, guessBounds_last_sym _ h2⟩⟩,
    fun h => ⟨ensureBounds_none _ h,
      fun i hi => ⟨guessBounds_inner_lo _ i hi, guessBounds_inner_hi _ i hi⟩,
      fun h2 => ⟨guessBounds_first_sym _ h2, guessBounds_last_sym _ h2⟩⟩⟩

/-- Witness for C4: a field whose latitude axis lacks bounds and whose
longitude axis carries them; after the Loader both axes have bounds, the
supplied ones verbatim, and the derived interior bound at `[0, 1, 4]` is
the midpoint `1/2`. -/
theorem loaderPost_bounds_witness :
    (loaderPost
        { axis0 := { points := [0, 1, 4], bounds := none }
          axis1 := { points := [0, 1], bounds := some [(-1/2, 1/2), (1/2, 3/2)] }
          values := [[some 1, some 2], [some 3, some 4], [some 5, some 6]] }).axis0.bounds.isSome ∧
    (loaderPost
        { axis0 := { points := [0, 1, 4], bounds := none }
          axis1 := { points := [0, 1], bounds := some [(-1/2, 1/2), (1/2, 3/2)] }
          values := [[some 1, some 2], [some 3, some 4], [some 5, some 6]] }).axis1.bounds =
      some [(-1/2, 1/2), (1/2, 3/2)] ∧
    ((guessBounds [0, 1, 4]).getD 1 (0, 0)).1 =
      ([0, 1, 4].getD 0 (0 : ℚ) + [0, 1, 4].getD 1 0) / 2 := by
  have h := loaderPost_bounds
    { axis0 := { points := [0, 1, 4], bounds := none }
      axis1 := { points := [0, 1], bounds := some [(-1/2, 1/2), (1/2, 3/2)] }
      values := [[some 1, some 2], [some 3, some 4], [some 5, some 6]] }
  exact ⟨h.1.1, h.2.2.1 _ rfl, ((h.2.2.2.1 rfl).2.1 0 (by norm_num)).1⟩

/-- C8: for every `GriddedField` and every pair of bounding boxes `b1 ⊆ b2`,
the axis lengths of the field extracted with `b1` are at most the
corresponding axis lengths of the field extracted with `b2`. -/
theorem intersection_length_mono (f : GriddedField) (b1 b2 : Box)
    (hlat0 : b2.lat0 ≤ b1.lat0) (hlat1 : b1.lat1 ≤ b2.lat1)
    (hlon0 : b2.lon0 ≤ b1.lon0) (hlon1 : b1.lon1 ≤ b2.lon1) :
    (intersection f b1).axis0.points.length ≤ (intersection f b2).axis0.points.length ∧
    (intersection f b1).axis1.points.length ≤ (intersection f b2).axis1.points.length := by
  constructor
  · rw [intersection, intersection]
    rw [length_restrictAxis, length_restrictAxis]
    exact keptIndices_length_mono _ hlat0 hlat1
  · rw [intersection, intersection]
    rw [length_restrictAxis, length_restrictAxis]
    exact keptIndices_length_mono _ hlon0 hlon1

/-- C1: the resampling mask/convexity policy.  Let `(x, y)` be the
position of output cell `(i, j)`, projected into source-grid coordinates.
If it falls outside the source's covered extent (the rectangle spanned by
the first and last cell centers of each strictly monotone source axis),
the output cell is masked invalid, never extrapolated.  If it falls fully
inside (between the first and last centers on both axes) and the source
is well-shaped and unmasked, the output cell is non-masked and its value
lies between the minimum and the maximum of the four nearest source
values (the corners of the bracketing source cell). -/
theorem regrid_mask_and_convexity (src tgt : GriddedField) (proj : ℚ → ℚ → ℚ × ℚ)
    (i j : ℕ) (hi : i < tgt.axis0.points.length) (hj : j < tgt.axis1.points.length)
    (hm0 : src.axis0.points.Pairwise (· < ·))
    (hm1 : src.axis1.points.Pairwise (· < ·))
    (x y : ℚ)
    (hx : x = (proj (tgt.axis0.points.getD i 0) (tgt.axis1.points.getD j 0)).1)
    (hy : y = (proj (tgt.axis0.points.getD i 0) (tgt.axis1.points.getD j 0)).2) :
    (x < src.axis0.points.getD 0 0 ∨
      src.axis0.points.getD (src.axis0.points.length - 1) 0 < x ∨
      y < src.axis1.points.getD 0 0 ∨
      src.axis1.points.getD (src.axis1.points.length - 1) 0 < y →
      getV (regrid src tgt proj).values i j = none) ∧
    (2 ≤ src.axis0.points.length → 2 ≤ src.axis1.points.length →
      src.values.length = src.axis0.points.length →
      (∀ row ∈ src.values, row.length = src.axis1.points.length) →
      (∀ row ∈ src.values, ∀ v ∈ row, v.isSome) →
      src.axis0.points.getD 0 0 ≤ x →
      x ≤ src.axis0.points.getD (src.axis0.points.length - 1) 0 →
      src.axis1.points.getD 0 0 ≤ y →
      y ≤ src.axis1.points.getD (src.axis1.points.length - 1) 0 →
      ∃ ci cj v00 v01 v10 v11 q,
        findCell src.axis0.points x = some ci ∧
        findCell src.axis1.points y = some cj ∧
        getV src.values ci cj = some v00 ∧
        getV src.values ci (cj + 1) = some v01 ∧
        getV src.values (ci + 1) cj = some v10 ∧
        getV src.values (ci + 1) (cj + 1) = some v11 ∧
        getV (regrid src tgt proj).values i j = some q ∧
        min (min v00 v01) (min v10 v11) ≤ q ∧
        q ≤ max (max v00 v01) (max v10 v11)) := by
  have hregrid : getV (regrid src tgt proj).values i j =
      bilinear src.axis0.points src.axis1.points src.values x y := by
    rw [getV_regrid src tgt proj i j hi hj, ← hx, ← hy]
  constructor
  · intro hout
    rw [hregrid]
    rcases hout with h | h | h | h
    · simp only [bilinear, findCell_eq_none_of_lt _ _ hm0 h]
    · simp only [bilinear, findCell_eq_none_of_gt _ _ hm0 h]
    · rw [bilinear.eq_def, findCell_eq_none_of_lt _ _ hm1 h]
      rcases findCell src.axis0.points x with _ | ci <;> rfl
    · rw [bilinear.eq_def, findCell_eq_none_of_gt _ _ hm1 h]
      rcases findCell src.axis0.points x with _ | ci <;> rfl
  · intro h20 h21 hlen hrows hvals hx0 hx1 hy0 hy1
    obtain ⟨ci, hci⟩ := findCell_isSome _ _ h20 hx0 hx1
    obtain ⟨cj, hcj⟩ := findCell_isSome _ _ h21 hy0 hy1
    obtain ⟨hci1, hcix0, hcix1⟩ := findCell_spec _ _ _ hci
    obtain ⟨hcj1, hcjy0, hcjy1⟩ := findCell_spec _ _ _ hcj
    have hcorner : ∀ a b : ℕ, a < src.axis0.points.length →
        b < src.axis1.points.length → (getV src.values a b).isSome := by
      intro a b ha hb
      have hrowmem : src.values.getD a [] ∈ src.values := by
        rw [List.getD_eq_getElem _ _ (by rw [hlen]; exact ha)]
        exact List.getElem_mem _
      have hrowlen : (src.values.getD a []).length = src.axis1.points.length :=
        hrows _ hrowmem
      have hvmem : (src.values.getD a []).getD b none ∈ src.values.getD a [] := by
        rw [List.getD_eq_getElem (src.values.getD a []) none
          (show b < (src.values.getD a []).length by rw [hrowlen]; exact hb)]
        exact List.getElem_mem _
      exact hvals _ hrowmem _ hvmem
    obtain ⟨v00, hv00⟩ := Option.isSome_iff_exists.mp
      (hcorner ci cj (by omega) (by omega))
    obtain ⟨v01, hv01⟩ := Option.isSome_iff_exists.mp
      (hcorner ci (cj + 1) (by omega) (by omega))
    obtain ⟨v10, hv10⟩ := Option.isSome_iff_exists.mp
      (hcorner (ci + 1) cj (by omega) (by omega))
    obtain ⟨v11, hv11⟩ := Option.isSome_iff_exists.mp
      (hcorner (ci + 1) (cj + 1) (by omega) (by omega))
    have hx01 : src.axis0.points.getD ci 0 < src.axis0.points.getD (ci + 1) 0 :=
      pairwise_getD_lt _ hm0 (by omega) hci1
    have hy01 : src.axis1.points.getD cj 0 < src.axis1.points.getD (cj + 1) 0 :=
      pairwise_getD_lt _ hm1 (by omega) hcj1
    have htx0 : 0 ≤ (x - src.axis0.points.getD ci 0) /
        (src.axis0.points.getD (ci + 1) 0 - src.axis0.points.getD ci 0) :=
      div_nonneg (by linarith) (by linarith)
    have htx1 : (x - src.axis0.points.getD ci 0) /
        (src.axis0.points.getD (ci + 1) 0 - src.axis0.points.getD ci 0) ≤ 1 := by
      rw [div_le_one (by linarith)]
      linarith
    have hty0 : 0 ≤ (y - src.axis1.points.getD cj 0) /
        (src.axis1.points.getD (cj + 1) 0 - src.axis1.points.getD cj 0) :=
      div_nonneg (by linarith) (by linarith)
    have hty1 : (y - src.axis1.points.getD cj 0) /
        (src.axis1.points.getD (cj + 1) 0 - src.axis1.points.getD cj 0) ≤ 1 := by
      rw [div_le_one (by linarith)]
      linarith
    obtain ⟨hlow, hhigh⟩ := convex_combo_bounds _ _ v00 v01 v10 v11 htx0 htx1 hty0 hty1
    refine ⟨ci, cj, v00, v01, v10, v11, _, hci, hcj, hv00, hv01, hv10, hv11, ?_, hlow, hhigh⟩
    rw [hregrid]
    simp only [bilinear, hci, hcj, hv00, hv01, hv10, hv11]

/-- Witness for C1: at the concrete 4×4 source and 2×2 target, output cell
`(0, 0)` projects to `(1/2, 1/2)`, inside the source coverage, so it is
unmasked and bounded by the four surrounding source values. -/
theorem regrid_mask_and_convexity_witness :
    ∃ ci cj v00 v01 v10 v11 q,
      findCell src4.axis0.points (1/2) = some ci ∧
      findCell src4.axis1.points (1/2) = some cj ∧
      getV src4.values ci cj = some v00 ∧
      getV src4.values ci (cj + 1) = some v01 ∧
      getV src4.values (ci + 1) cj = some v10 ∧
      getV src4.values (ci + 1) (cj + 1) = some v11 ∧
      getV (regrid src4 tgt2 projId).values 0 0 = some q ∧
      min (min v00 v01) (min v10 v11) ≤ q ∧
      q ≤ max (max v00 v01) (max v10 v11) :=
  (regrid_mask_and_convexity src4 tgt2 projId 0 0
    (by norm_num [src4, tgt2]) (by norm_num [src4, tgt2])
    (by norm_num [src4, List.pairwise_cons]) (by norm_num [src4, List.pairwise_cons])
    (1/2) (1/2) (by norm_num [tgt2, projId]) (by norm_num [tgt2, projId])).2
    (by norm_num [src4]) (by norm_num [src4])
    (by norm_num [src4]) (by norm_num [src4, List.forall_mem_cons])
    (by norm_num [src4, List.forall_mem_cons])
    (by norm_num [src4]) (by norm_num [src4])
    (by norm_num [src4]) (by norm_num [src4])

/-- C7: round-trip identity.  Extracting with a bounding box that covers
the field's entire extent (no crop) and saving the result reproduces a
field whose array values and axis positions are identical to the
original's, for any well-shaped field whose cells carry genuine bounds
inside the box. -/
theorem roundtrip_identity (f : GriddedField) (box : Box)
    (hcb0 : (cellBounds f.axis0).length = f.axis0.points.length)
    (hcb1 : (cellBounds f.axis1).length = f.axis1.points.length)
    (hw0 : ∀ b ∈ cellBounds f.axis0, b.1 < b.2)
    (hw1 : ∀ b ∈ cellBounds f.axis1, b.1 < b.2)
    (hcov0 : ∀ b ∈ cellBounds f.axis0, box.lat0 ≤ b.1 ∧ b.2 ≤ box.lat1)
    (hcov1 : ∀ b ∈ cellBounds f.axis1, box.lon0 ≤ b.1 ∧ b.2 ≤ box.lon1)
    (hvlen : f.values.length = f.axis0.points.length)
    (hrows : ∀ row ∈ f.values, row.length = f.axis1.points.length) :
    (save (intersection f box)).values = f.values ∧
    (save (intersection f box)).axis0.points = f.axis0.points ∧
    (save (intersection f box)).axis1.points = f.axis1.points := by
  have hk0 : keptIndices f.axis0 box.lat0 box.lat1 =
      List.range f.axis0.points.length :=
    keptIndices_eq_range _ _ _ hcb0 hw0 hcov0
  have hk1 : keptIndices f.axis1 box.lon0 box.lon1 =
      List.range f.axis1.points.length :=
    keptIndices_eq_range _ _ _ hcb1 hw1 hcov1
  refine ⟨?_, ?_, ?_⟩
  · rw [save, intersection]
    dsimp only
    rw [hk0, hk1]
    apply List.ext_getElem
    · rw [List.length_map, List.length_range, hvlen]
    · intro i h1 h2
      rw [List.getElem_map, List.getElem_range]
      have hrowmem : f.values.getD i [] ∈ f.values := by
        rw [List.getD_eq_getElem _ _ h2]
        exact List.getElem_mem _
      have hrowlen : (f.values.getD i []).length = f.axis1.points.length :=
        hrows _ hrowmem
      rw [← hrowlen, map_getD_range (f.values.getD i []) none]
      rw [List.getD_eq_getElem _ _ h2]
  · rw [save, intersection]
    dsimp only
    rw [restrictAxis]
    dsimp only
    rw [hk0, map_getD_range f.axis0.points 0]
  · rw [save, intersection]
    dsimp only
    rw [restrictAxis]
    dsimp only
    rw [hk1, map_getD_range f.axis1.points 0]

/-- Witness for C7 at a concrete 2×2 field and an all-covering box. -/
theorem roundtrip_identity_witness :
    (save (intersection
        { axis0 := { points := [0, 1], bounds := some [(-1/2, 1/2), (1/2, 3/2)] }
          axis1 := { points := [0, 1], bounds := some [(-1/2, 1/2), (1/2, 3/2)] }
          values := [[some 1, some 2], [some 3, some 4]] }
        { lat0 := -10, lat1 := 10, lon0 := -10, lon1 := 10 })).values =
      [[some 1, some 2], [some 3, some 4]] := by
  have h := roundtrip_identity
    { axis0 := { points := [0, 1], bounds := some [(-1/2, 1/2), (1/2, 3/2)] }
      axis1 := { points := [0, 1], bounds := some [(-1/2, 1/2), (1/2, 3/2)] }
      values := [[some 1, some 2], [some 3, some 4]] }
    { lat0 := -10, lat1 := 10, lon0 := -10, lon1 := 10 }
    (by norm_num [cellBounds]) (by norm_num [cellBounds])
    (by norm_num [cellBounds, List.forall_mem_cons])
    (by norm_num [cellBounds, List.forall_mem_cons])
    (by norm_num [cellBounds, List.forall_mem_cons])
    (by norm_num [cellBounds, List.forall_mem_cons])
    (by norm_num) (by norm_num [List.forall_mem_cons])
  exact h.1

/-- C9: every field produced by a pipeline stage satisfies the structural
invariant (array shape `(len axis0, len axis1)`, strictly monotone axes,
and — when bounds are present — contiguous, monotone bounds brackets):
the Loader's post-parse step preserves it (axes needing guessed bounds
must have at least two points, as `guess_bounds` requires); the
target-grid constructor establishes it for ordered extents and counts at
least 2; resampling yields it whenever the target geometry satisfies it;
and extraction preserves it for every box. -/
theorem pipeline_invariant :
    (∀ f : GriddedField, FieldInv f →
      (f.axis0.bounds = none → 2 ≤ f.axis0.points.length) →
      (f.axis1.bounds = none → 2 ≤ f.axis1.points.length) →
      FieldInv (loaderPost f)) ∧
    (∀ (lat0 lat1 lon0 lon1 : ℚ) (n m : ℕ) (fill : ℚ), lat0 < lat1 →
      lon0 < lon1 → 2 ≤ n → 2 ≤ m →
      FieldInv (makeTargetGrid lat0 lat1 lon0 lon1 n m fill)) ∧
    (∀ (src tgt : GriddedField) (proj : ℚ → ℚ → ℚ × ℚ), FieldInv tgt →
      FieldInv (regrid src tgt proj)) ∧
    (∀ (f : GriddedField) (box : Box), FieldInv f →
      FieldInv (intersection f box)) :=
  ⟨fieldInv_loaderPost,
   fun lat0 lat1 lon0 lon1 n m fill hlat hlon hn hm =>
     fieldInv_makeTargetGrid lat0 lat1 lon0 lon1 n m fill hlat hlon hn hm,
   fieldInv_regrid, fieldInv_intersection⟩

/-- Witness for C9: the target-grid constructor at extents `0 < 1`,
counts `(2, 2)` yields an invariant-satisfying field, and so does
extracting a concrete box from it. -/
theorem pipeline_invariant_witness :
    FieldInv (makeTargetGrid 0 1 0 1 2 2 (37/100)) ∧
    FieldInv (intersection (makeTargetGrid 0 1 0 1 2 2 (37/100))
      { lat0 := 0, lat1 := 1/2, lon0 := 0, lon1 := 1/2 }) := by
  have h1 := pipeline_invariant.2.1 0 1 0 1 2 2 (37/100)
    (by norm_num) (by norm_num) (by norm_num) (by norm_num)
  exact ⟨h1, pipeline_invariant.2.2.2 _ _ h1⟩

/-- C6: resampling the 4×4 source field with values
`[[0,1,2,3],[4,5,6,7],[8,9,10,11],[12,13,14,15]]` on the 0–3 grid onto the
2×2 target with cell centers `(0.5,0.5), (0.5,2.5), (2.5,0.5), (2.5,2.5)`
under bilinear interpolation yields `[[2.5, 4.5], [10.5, 12.5]]` with no
cell masked. -/
theorem regrid_concrete : (regrid src4 tgt2 projId).values =
    [[some (5/2), some (9/2)], [some (21/2), some (25/2)]] := by
  have f0 : findCell [0, 1, 2, 3] (1/2) = some 0 := by
    rw [findCell]; norm_num [List.range_succ, List.find?]
  have f2 : findCell [0, 1, 2, 3] (5/2) = some 2 := by
    rw [findCell]; norm_num [List.range_succ, List.find?]
  simp only [regrid, src4, tgt2, projId, List.map]
  simp only [bilinear, f0, f2]
  norm_num [getV]

/-- C10: the resampling output depends only on the target's geometry, not
on its (filler) data values: two targets with identical axes produce
identical regrid results, whatever values they carry. -/
theorem regrid_geometry_only (src t1 t2 : GriddedField) (proj : ℚ → ℚ → ℚ × ℚ)
    (h0 : t1.axis0 = t2.axis0) (h1 : t1.axis1 = t2.axis1) :
    regrid src t1 proj = regrid src t2 proj := by
  rw [regrid, regrid, h0, h1]

/-- Witness for C10: the concrete 2×2 target with filler 0 and with a
different filler draw give the same regrid output. -/
theorem regrid_geometry_only_witness :
    regrid src4 tgt2 projId =
      regrid src4
        { axis0 := { points := [1/2, 5/2], bounds := none }
          axis1 := { points := [1/2, 5/2], bounds := none }
          values := [[some (7/13), some (1/3)], [some (2/7), some (5/11)]] }
        projId :=
  regrid_geometry_only src4 tgt2
    { axis0 := { points := [1/2, 5/2], bounds := none }
      axis1 := { points := [1/2, 5/2], bounds := none }
      values := [[some (7/13), some (1/3)], [some (2/7), some (5/11)]] }
    projId rfl rfl

/-- Witness for C8 at a concrete field and nested boxes. -/
theorem intersection_length_mono_witness :
    (intersection
        { axis0 := { points := [0, 1, 2], bounds := some [(-1/2, 1/2), (1/2, 3/2), (3/2, 5/2)] }
          axis1 := { points := [0, 1], bounds := some [(-1/2, 1/2), (1/2, 3/2)] }
          values := [[some 1, some 2], [some 3, some 4], [some 5, some 6]] }
        { lat0 := 0, lat1 := 1, lon0 := 0, lon1 := 1 }).axis0.points.length ≤
      (intersection
        { axis0 := { points := [0, 1, 2], bounds := some [(-1/2, 1/2), (1/2, 3/2), (3/2, 5/2)] }
          axis1 := { points := [0, 1], bounds := some [(-1/2, 1/2), (1/2, 3/2)] }
          values := [[some 1, some 2], [some 3, some 4], [some 5, some 6]] }
        { lat0 := -1, lat1 := 3, lon0 := -1, lon1 := 3 }).axis0.points.length :=
  (intersection_length_mono
    { axis0 := { points := [0, 1, 2], bounds := some [(-1/2, 1/2), (1/2, 3/2), (3/2, 5/2)] }
      axis1 := { points := [0, 1], bounds := some [(-1/2, 1/2), (1/2, 3/2)] }
      values := [[some 1, some 2], [some 3, some 4], [some 5, some 6]] }
    { lat0 := 0, lat1 := 1, lon0 := 0, lon1 := 1 }
    { lat0 := -1, lat1 := 3, lon0 := -1, lon1 := 3 }
    (by norm_num) (by norm_num) (by norm_num) (by norm_num)).1

end UkvPipeline
